import Mathlib

/-!
The request pipeline of `server/server.go`.

A shallow embedding of the gin middleware of package `server`: the context
accessors and setters (`ToUser`, `ToPerm`, `ToDatastore`, `SetQueue`, ...), the
resolving stages (`SetUser`, `SetRepo`, `SetPerm`), the access guards
(`MustUser`, `MustAdmin`, `MustAgent`, `CheckPull`, `CheckPush`) and the
response hardening (`SetHeaders`).

A handler `func(c *gin.Context)` becomes a function from the context to an
`Outcome`: the handler either calls `c.Next()` (the chain continues with the
context as the handler left it), aborts with a status (`c.AbortWithStatus`,
`c.Fail`), or panics (a nil dereference, or `c.MustGet` on a key that was
never set).
-/

/-! ## Records of package `common` -/

namespace common

/-- Modelled from the spec: the token kinds of package `common`, whose
    declaration is not part of this file. The spec's data model lists the kinds
    Session, Label and Agent; the code names `TokenSess` and `TokenAgent`. -/
inductive TokenKind where
  | TokenSess
  | TokenLabel
  | TokenAgent
  deriving DecidableEq, Repr

export TokenKind (TokenSess TokenLabel TokenAgent)

/-- Modelled from the spec: `common.Token`, with the fields the code reads
    (`Kind`, `Login`, `Label`, `Issued`). -/
structure Token where
  Kind : TokenKind
  Login : String
  Label : String
  Issued : Int
  deriving DecidableEq, Repr

/-- Modelled from the spec: `common.User`, with the fields `Login` and `Admin`. -/
structure User where
  Login : String
  Admin : Bool
  deriving DecidableEq, Repr

/-- Modelled from the spec: `common.Repo`, identified by owner and name. -/
structure Repo where
  Owner : String
  Name : String
  deriving DecidableEq, Repr

/-- Modelled from the spec: `common.Perm`, the capability flags of one request. -/
structure Perm where
  Pull : Bool
  Push : Bool
  Admin : Bool
  deriving DecidableEq, Repr

end common

/-! ## Collaborators -/

namespace http

/-- The parts of `*http.Request` the handlers read: the method, the headers the
    session service inspects, and whether `Request.TLS` is non-nil. -/
structure Request where
  Method : String
  Header : List (String × String)
  TLS : Bool
  deriving DecidableEq, Repr

end http

namespace session

/-- Modelled from the spec: the session service, one operation that extracts a
    token from the request or yields none (`GetLogin` returning nil). -/
structure Session where
  GetLogin : http.Request → Option common.Token

end session

namespace datastore

/-- Modelled from the spec: the datastore interface. Each lookup returns a record
    or a not-found signal (`err != nil`, in which case the returned pointer is
    nil). `TokenLabel` receives the user pointer the handler passes on, which is
    nil when the user lookup failed. -/
structure Datastore where
  UserLogin : String → Option common.User
  RepoName : String → String → Option common.Repo
  TokenLabel : Option common.User → String → Option common.Token

end datastore

namespace queue

/-- Handle of the build queue; never inspected by the pipeline. -/
structure Queue where
  id : Nat
  deriving DecidableEq, Repr

end queue

namespace eventbus

/-- Handle of the event bus; never inspected by the pipeline. -/
structure Bus where
  id : Nat
  deriving DecidableEq, Repr

end eventbus

namespace runner

/-- Handle of the build runner; never inspected by the pipeline. -/
structure Runner where
  id : Nat
  deriving DecidableEq, Repr

end runner

namespace settings

/-- Handle of the settings; never inspected by the pipeline. -/
structure Settings where
  id : Nat
  deriving DecidableEq, Repr

end settings

namespace remote

/-- Modelled from the spec: the remote-hosting collaborator, one operation that
    computes the permission set of a (user-or-anonymous, repository) pair. -/
structure Remote where
  Perm : Option common.User → common.Repo → common.Perm

end remote

/-! ## The gin context -/

namespace gin

/-- The request context `*gin.Context`. The key/value bag `c.Keys` is one optional
    field per key the package uses, holding a value of the type the accessor of
    that key asserts: `none` is a key that was never set. A pointer-typed key
    (user, repo, perm, settings) holding a nil pointer is read back as nil by its
    accessor, exactly like an unset key, so the two are not distinguished; a
    handle key holds the handle its setter was given, which is not nil. The bag
    itself, with string keys and values of any type, is `Keys` below; the
    accessors over it are in `server.bag`. `Header` is the response header map
    `c.Writer.Header()`. -/
structure Context where
  Request : http.Request
  Params : List (String × String)
  queue : Option queue.Queue
  eventbus : Option eventbus.Bus
  remote : Option remote.Remote
  runner : Option runner.Runner
  settings : Option settings.Settings
  datastore : Option datastore.Datastore
  session : Option session.Session
  user : Option common.User
  repo : Option common.Repo
  perm : Option common.Perm
  Header : List (String × List String)

/-- The lookup `c.Params.ByName(name)`: the value of the first parameter with
    that key, the empty string when there is none. -/
def Params.ByName (ps : List (String × String)) (name : String) : String :=
  match ps.find? (fun p => p.1 == name) with
  | some p => p.2
  | none => ""

/-- A value of type `interface{}` as stored in the key bag `c.Keys`, tagged with its
    dynamic type: `nil` is the nil interface, which is what a nil handle of an
    interface type (`queue.Queue`, `eventbus.Bus`, `remote.Remote`,
    `runner.Runner`, `datastore.Datastore`, `session.Session`) becomes when it is
    stored; a pointer (`*settings.Settings`, `*common.User`, `*common.Repo`,
    `*common.Perm`) keeps its type also when it is nil; `other` is a value of any
    other type. -/
inductive Value where
  | nil
  | queue (v : queue.Queue)
  | eventbus (v : eventbus.Bus)
  | remote (v : remote.Remote)
  | runner (v : runner.Runner)
  | settings (v : Option settings.Settings)
  | datastore (v : datastore.Datastore)
  | session (v : session.Session)
  | user (v : Option common.User)
  | repo (v : Option common.Repo)
  | perm (v : Option common.Perm)
  | other (v : String)

/-- The conversion of a handle of an interface type to `interface{}`: a nil handle
    is the nil interface. -/
def Value.ofHandle {α : Type} (tag : α → Value) (v : Option α) : Value :=
  match v with
  | none => Value.nil
  | some x => tag x

/-- The lookup `c.Get(key)` in the key bag: the value and true (`some`), or false
    (`none`) when the key was never set. -/
def Keys.Get (k : List (String × Value)) (key : String) : Option Value :=
  (k.find? (fun e => e.1 == key)).map (fun e => e.2)

/-- The update `c.Set(key, value)`, that is `c.Keys[key] = value`. -/
def Keys.Set (k : List (String × Value)) (key : String) (v : Value) :
    List (String × Value) :=
  (key, v) :: k.filter (fun e => e.1 != key)

/-- The lookup `c.MustGet(key)`: `none` is its panic for a key that does not
    exist. -/
def Keys.MustGet (k : List (String × Value)) (key : String) : Option Value :=
  match Keys.Get k key with
  | some v => some v
  | none => none

/-- What `c.Get(key)` answers in a typed context: the value of a set key, tagged
    with its type. -/
def Context.Get (c : Context) (key : String) : Option Value :=
  if key == "queue" then c.queue.map Value.queue
  else if key == "eventbus" then c.eventbus.map Value.eventbus
  else if key == "remote" then c.remote.map Value.remote
  else if key == "runner" then c.runner.map Value.runner
  else if key == "settings" then c.settings.map (fun v => Value.settings (some v))
  else if key == "datastore" then c.datastore.map Value.datastore
  else if key == "session" then c.session.map Value.session
  else if key == "user" then c.user.map (fun v => Value.user (some v))
  else if key == "repo" then c.repo.map (fun v => Value.repo (some v))
  else if key == "perm" then c.perm.map (fun v => Value.perm (some v))
  else none

end gin

/-! ## Response headers -/

namespace textproto

/-- The test `validHeaderFieldByte` of the Go library: letters, digits and the
    punctuation allowed in a header field name. -/
def validHeaderFieldByte (c : Char) : Bool :=
  c.isAlphanum ||
    [Char.ofNat 33, Char.ofNat 35, Char.ofNat 36, Char.ofNat 37, Char.ofNat 38,
     Char.ofNat 39, Char.ofNat 42, Char.ofNat 43, Char.ofNat 45, Char.ofNat 46,
     Char.ofNat 94, Char.ofNat 95, Char.ofNat 96, Char.ofNat 124, Char.ofNat 126].contains c

/-- The canonical spelling of the characters of a header key: upper case at the
    start and after each dash, lower case elsewhere. -/
def canonicalChars : Bool → List Char → List Char
  | _, [] => []
  | upper, c :: cs =>
    let c1 :=
      if upper && c.isLower then c.toUpper
      else if !upper && c.isUpper then c.toLower
      else c
    c1 :: canonicalChars (c1 == Char.ofNat 45) cs

/-- The Go library function `textproto.CanonicalMIMEHeaderKey`, which `Header.Add`
    and `Header.Set` apply to their key: a key with a character that is not a
    valid header field byte is left as it is. -/
def CanonicalMIMEHeaderKey (s : String) : String :=
  if s.data.all validHeaderFieldByte then String.mk (canonicalChars true s.data) else s

end textproto

namespace http

/-- The values stored under `key` in a header map, `h[key]`: empty when the key
    is missing. -/
def Header.Values (h : List (String × List String)) (key : String) : List String :=
  match h.find? (fun e => e.1 == key) with
  | some e => e.2
  | none => []

/-- The map update `h[key] = vs`. -/
def Header.put (h : List (String × List String)) (key : String)
    (vs : List String) : List (String × List String) :=
  (key, vs) :: h.filter (fun e => e.1 != key)

/-- The Go library method `Header.Add`: appends the value to the values of the
    canonical key. -/
def Header.Add (h : List (String × List String)) (key value : String) :
    List (String × List String) :=
  Header.put h (textproto.CanonicalMIMEHeaderKey key)
    (Header.Values h (textproto.CanonicalMIMEHeaderKey key) ++ [value])

/-- The Go library method `Header.Set`: replaces the values of the canonical key
    by the single value. -/
def Header.Set (h : List (String × List String)) (key value : String) :
    List (String × List String) :=
  Header.put h (textproto.CanonicalMIMEHeaderKey key) [value]

end http

namespace server

open common

/-- What a handler did with the request: `next c` is `c.Next()` with the context
    `c`, `abort code c` is `c.AbortWithStatus(code)` or `c.Fail(code, err)`, and
    `panic` is a Go runtime panic. -/
inductive Outcome where
  | next (c : gin.Context)
  | abort (code : Nat) (c : gin.Context)
  | panic

/-- The status a terminated request carries, if the handler terminated it. -/
def Outcome.status : Outcome → Option Nat
  | .abort code _ => some code
  | _ => none

/-- Whether the handler let the chain continue. -/
def Outcome.continues : Outcome → Bool
  | .next _ => true
  | _ => false

/-- The context after the handler, when it returned normally. -/
def Outcome.context : Outcome → Option gin.Context
  | .next c => some c
  | .abort _ c => some c
  | .panic => none

/-! ## Accessors -/

/-- Source `ToPerm`: nil when the key perm is unset. -/
def ToPerm (c : gin.Context) : Option Perm := c.perm

/-- Source `ToUser`: nil when the key user is unset. -/
def ToUser (c : gin.Context) : Option User := c.user

/-- Source `ToRepo`: nil when the key repo is unset. -/
def ToRepo (c : gin.Context) : Option Repo := c.repo

/-- Source `ToDatastore`: `c.MustGet("datastore")`; `none` is the panic of
    `MustGet` on an unset key. -/
def ToDatastore (c : gin.Context) : Option datastore.Datastore := c.datastore

/-- Source `ToSession`: `c.MustGet("session")`; `none` is the panic of `MustGet`
    on an unset key. -/
def ToSession (c : gin.Context) : Option session.Session := c.session

/-- Go's short-circuit `a && b` where evaluating `b` may panic (`none`). -/
def goAnd (a : Bool) (b : Option Bool) : Option Bool :=
  if a then b else some false

/-- The read `m.Pull` through the pointer `m`: a nil pointer panics. -/
def derefPull (m : Option Perm) : Option Bool := m.map (fun p => p.Pull)

/-- The read `m.Push` through the pointer `m`: a nil pointer panics. -/
def derefPush (m : Option Perm) : Option Bool := m.map (fun p => p.Push)

/-! ## Stages -/

/-- The lines `if err == nil { c.Set("user", user) }` of `SetUser`: the user key
    is set when the lookup succeeded and left alone when it failed. -/
def setUserIfFound (c : gin.Context) (user : Option User) : gin.Context :=
  match user with
  | some u => { c with user := some u }
  | none => c

/-- Source `SetUser(s)`. -/
def SetUser (s : session.Session) (c : gin.Context) : Outcome :=
  match ToDatastore c with
  | none => Outcome.panic
  | some ds =>
    match s.GetLogin c.Request with
    | none => Outcome.next c
    | some token =>
      if token.Login.length == 0 then Outcome.next c
      else
        let user := ds.UserLogin token.Login
        let c1 := setUserIfFound c user
        match token.Kind with
        | TokenSess => Outcome.next c1
        | _ =>
          match ds.TokenLabel user token.Label with
          | none => Outcome.abort 403 c1
          | some t =>
            if t.Issued != token.Issued then Outcome.abort 403 c1
            else Outcome.next c1

/-- Source `SetRepo()`. -/
def SetRepo (c : gin.Context) : Outcome :=
  match ToDatastore c with
  | none => Outcome.panic
  | some ds =>
    let u := ToUser c
    let owner := gin.Params.ByName c.Params "owner"
    let name := gin.Params.ByName c.Params "name"
    let r := ds.RepoName owner name
    if r.isNone && u.isSome then Outcome.abort 404 c
    else if r.isNone && u.isNone then Outcome.abort 401 c
    else Outcome.next { c with repo := r }

/-! ## Guards -/

/-- Source `MustAdmin()`. -/
def MustAdmin (c : gin.Context) : Outcome :=
  match ToUser c with
  | none => Outcome.abort 401 c
  | some u =>
    if !u.Admin then Outcome.abort 403 c
    else Outcome.next { c with user := some u }

/-- Source `MustAgent()`. -/
def MustAgent (c : gin.Context) : Outcome :=
  match ToSession c with
  | none => Outcome.panic
  | some sess =>
    match sess.GetLogin c.Request with
    | none => Outcome.abort 401 c
    | some token =>
      if token.Kind != TokenAgent then Outcome.abort 500 c
      else Outcome.next c

/-- Source `CheckPull()`: the four cases of the switch, tried in order. -/
def CheckPull (c : gin.Context) : Outcome :=
  let u := ToUser c
  let m := ToPerm c
  match goAnd u.isNone (some m.isNone) with
  | none => Outcome.panic
  | some true => Outcome.abort 401 c
  | some false =>
    match goAnd u.isNone ((derefPull m).map (fun b => b == false)) with
    | none => Outcome.panic
    | some true => Outcome.abort 401 c
    | some false =>
      match goAnd u.isSome ((derefPull m).map (fun b => b == false)) with
      | none => Outcome.panic
      | some true => Outcome.abort 404 c
      | some false => Outcome.next c

/-- Source `CheckPush()`: safe methods pass; otherwise the three cases of the
    switch, tried in order. -/
def CheckPush (c : gin.Context) : Outcome :=
  if c.Request.Method == "GET" || c.Request.Method == "OPTIONS" then Outcome.next c
  else
    let u := ToUser c
    let m := ToPerm c
    match goAnd u.isNone ((derefPush m).map (fun b => b == false)) with
    | none => Outcome.panic
    | some true => Outcome.abort 401 c
    | some false =>
      match goAnd u.isSome ((derefPush m).map (fun b => b == false)) with
      | none => Outcome.panic
      | some true => Outcome.abort 404 c
      | some false => Outcome.next c

/-! ## Collaborator handles -/

/-- Source `SetQueue(q)`. -/
def SetQueue (q : queue.Queue) (c : gin.Context) : Outcome :=
  Outcome.next { c with queue := some q }

/-- Source `ToQueue`: nil when the key queue is unset. -/
def ToQueue (c : gin.Context) : Option queue.Queue := c.queue

/-- Source `SetBus(r)`, which stores under the key eventbus. -/
def SetBus (r : eventbus.Bus) (c : gin.Context) : Outcome :=
  Outcome.next { c with eventbus := some r }

/-- Source `ToBus`: nil when the key eventbus is unset. -/
def ToBus (c : gin.Context) : Option eventbus.Bus := c.eventbus

/-- Source `ToRemote`: nil when the key remote is unset. -/
def ToRemote (c : gin.Context) : Option remote.Remote := c.remote

/-- Source `SetRemote(r)`. -/
def SetRemote (r : remote.Remote) (c : gin.Context) : Outcome :=
  Outcome.next { c with remote := some r }

/-- Source `ToRunner`: nil when the key runner is unset. -/
def ToRunner (c : gin.Context) : Option runner.Runner := c.runner

/-- Source `SetRunner(r)`. -/
def SetRunner (r : runner.Runner) (c : gin.Context) : Outcome :=
  Outcome.next { c with runner := some r }

/-- Source `ToSettings`: nil when the key settings is unset. -/
def ToSettings (c : gin.Context) : Option settings.Settings := c.settings

/-- Source `SetSettings(s)`. -/
def SetSettings (s : settings.Settings) (c : gin.Context) : Outcome :=
  Outcome.next { c with settings := some s }

/-- Source `SetDatastore(ds)`. -/
def SetDatastore (ds : datastore.Datastore) (c : gin.Context) : Outcome :=
  Outcome.next { c with datastore := some ds }

/-- Source `SetSession(s)`. -/
def SetSession (s : session.Session) (c : gin.Context) : Outcome :=
  Outcome.next { c with session := some s }

/-! ## Further stages and guards -/

/-- Source `SetPerm()`. The helper `perms` of the package is not part of this file
    and is taken as a parameter: it receives the remote, the user and the
    repository as read from the context, and returns the permission pointer. -/
def SetPerm (perms : Option remote.Remote → Option User → Option Repo → Option Perm)
    (c : gin.Context) : Outcome :=
  let remote := ToRemote c
  let user := ToUser c
  let repo := ToRepo c
  let perm := perms remote user repo
  Outcome.next { c with perm := perm }

/-- Source `MustUser()`. -/
def MustUser (c : gin.Context) : Outcome :=
  match ToUser c with
  | none => Outcome.abort 401 c
  | some u => Outcome.next { c with user := some u }

/-- Source `SetHeaders()`. The argument `now` is the text of
    `time.Now().UTC().Format(http.TimeFormat)` at the time of the call. -/
def SetHeaders (now : String) (c : gin.Context) : Outcome :=
  let h := c.Header
  let h := http.Header.Add h "Access-Control-Allow-Origin" "*"
  let h := http.Header.Add h "X-Frame-Options" "DENY"
  let h := http.Header.Add h "X-Content-Type-Options" "nosniff"
  let h := http.Header.Add h "X-XSS-Protection" "1; mode=block"
  let h := http.Header.Add h "Cache-Control" "no-cache"
  let h := http.Header.Add h "Cache-Control" "no-store"
  let h := http.Header.Add h "Cache-Control" "max-age=0"
  let h := http.Header.Add h "Cache-Control" "must-revalidate"
  let h := http.Header.Add h "Cache-Control" "value"
  let h := http.Header.Set h "Last-Modified" now
  let h := http.Header.Set h "Expires" "Thu, 01 Jan 1970 00:00:00 GMT"
  let h := if c.Request.TLS then
      http.Header.Add h "Strict-Transport-Security" "max-age=31536000"
    else h
  Outcome.next { c with Header := h }

/-- The handler chain: when the outcome is `c.Next()` the following handler runs
    on the context as it was left; an aborted or panicked request runs no further
    handler. -/
def Outcome.andThen (o : Outcome) (handler : gin.Context → Outcome) : Outcome :=
  match o with
  | Outcome.next c => handler c
  | Outcome.abort code c => Outcome.abort code c
  | Outcome.panic => Outcome.panic

/-- The chain `SetRepo`, `SetPerm`, `CheckPull` of a repository route. -/
def repoPullChain (perms : Option remote.Remote → Option User → Option Repo → Option Perm)
    (c : gin.Context) : Outcome :=
  ((SetRepo c).andThen (SetPerm perms)).andThen CheckPull

/-! ## The accessors over the key bag -/

namespace bag

/-- What an accessor does: it returns a pointer or handle, `value none` being nil,
    or it panics. -/
inductive Read (α : Type) where
  | value (v : Option α)
  | panic

/-- Source `SetQueue(q)`: `c.Set("queue", q)`, then `c.Next()`. -/
def SetQueue (q : Option queue.Queue) (k : List (String × gin.Value)) :
    List (String × gin.Value) :=
  gin.Keys.Set k "queue" (gin.Value.ofHandle gin.Value.queue q)

/-- Source `ToQueue`: `c.Get("queue")`, nil when not ok, else `v.(queue.Queue)`. -/
def ToQueue (k : List (String × gin.Value)) : Read queue.Queue :=
  match gin.Keys.Get k "queue" with
  | none => Read.value none
  | some (gin.Value.queue q) => Read.value (some q)
  | some _ => Read.panic

/-- Source `SetBus(r)`: `c.Set("eventbus", r)`, then `c.Next()`. -/
def SetBus (r : Option eventbus.Bus) (k : List (String × gin.Value)) :
    List (String × gin.Value) :=
  gin.Keys.Set k "eventbus" (gin.Value.ofHandle gin.Value.eventbus r)

/-- Source `ToBus`: `c.Get("eventbus")`, nil when not ok, else `v.(eventbus.Bus)`. -/
def ToBus (k : List (String × gin.Value)) : Read eventbus.Bus :=
  match gin.Keys.Get k "eventbus" with
  | none => Read.value none
  | some (gin.Value.eventbus b) => Read.value (some b)
  | some _ => Read.panic

/-- Source `ToRemote`: `c.Get("remote")`, nil when not ok, else `v.(remote.Remote)`. -/
def ToRemote (k : List (String × gin.Value)) : Read remote.Remote :=
  match gin.Keys.Get k "remote" with
  | none => Read.value none
  | some (gin.Value.remote r) => Read.value (some r)
  | some _ => Read.panic

/-- Source `SetRemote(r)`: `c.Set("remote", r)`, then `c.Next()`. -/
def SetRemote (r : Option remote.Remote) (k : List (String × gin.Value)) :
    List (String × gin.Value) :=
  gin.Keys.Set k "remote" (gin.Value.ofHandle gin.Value.remote r)

/-- Source `ToRunner`: `c.Get("runner")`, nil when not ok, else `v.(runner.Runner)`. -/
def ToRunner (k : List (String × gin.Value)) : Read runner.Runner :=
  match gin.Keys.Get k "runner" with
  | none => Read.value none
  | some (gin.Value.runner r) => Read.value (some r)
  | some _ => Read.panic

/-- Source `SetRunner(r)`: `c.Set("runner", r)`, then `c.Next()`. -/
def SetRunner (r : Option runner.Runner) (k : List (String × gin.Value)) :
    List (String × gin.Value) :=
  gin.Keys.Set k "runner" (gin.Value.ofHandle gin.Value.runner r)

/-- Source `ToSettings`: `c.Get("settings")`, nil when not ok, else
    `v.(*settings.Settings)`. -/
def ToSettings (k : List (String × gin.Value)) : Read settings.Settings :=
  match gin.Keys.Get k "settings" with
  | none => Read.value none
  | some (gin.Value.settings s) => Read.value s
  | some _ => Read.panic

/-- Source `SetSettings(s)`: `c.Set("settings", s)`, then `c.Next()`. -/
def SetSettings (s : Option settings.Settings) (k : List (String × gin.Value)) :
    List (String × gin.Value) :=
  gin.Keys.Set k "settings" (gin.Value.settings s)

/-- Source `ToPerm`: `c.Get("perm")`, nil when not ok, else `v.(*common.Perm)`. -/
def ToPerm (k : List (String × gin.Value)) : Read Perm :=
  match gin.Keys.Get k "perm" with
  | none => Read.value none
  | some (gin.Value.perm m) => Read.value m
  | some _ => Read.panic

/-- Source `ToUser`: `c.Get("user")`, nil when not ok, else `v.(*common.User)`. -/
def ToUser (k : List (String × gin.Value)) : Read User :=
  match gin.Keys.Get k "user" with
  | none => Read.value none
  | some (gin.Value.user u) => Read.value u
  | some _ => Read.panic

/-- Source `ToRepo`: `c.Get("repo")`, nil when not ok, else `v.(*common.Repo)`. -/
def ToRepo (k : List (String × gin.Value)) : Read Repo :=
  match gin.Keys.Get k "repo" with
  | none => Read.value none
  | some (gin.Value.repo r) => Read.value r
  | some _ => Read.panic

/-- Source `ToDatastore`: `c.MustGet("datastore").(datastore.Datastore)`. -/
def ToDatastore (k : List (String × gin.Value)) : Read datastore.Datastore :=
  match gin.Keys.MustGet k "datastore" with
  | none => Read.panic
  | some (gin.Value.datastore ds) => Read.value (some ds)
  | some _ => Read.panic

/-- Source `ToSession`: `c.MustGet("session").(session.Session)`. -/
def ToSession (k : List (String × gin.Value)) : Read session.Session :=
  match gin.Keys.MustGet k "session" with
  | none => Read.panic
  | some (gin.Value.session s) => Read.value (some s)
  | some _ => Read.panic

/-- Source `SetDatastore(ds)`: `c.Set("datastore", ds)`, then `c.Next()`. -/
def SetDatastore (ds : Option datastore.Datastore) (k : List (String × gin.Value)) :
    List (String × gin.Value) :=
  gin.Keys.Set k "datastore" (gin.Value.ofHandle gin.Value.datastore ds)

/-- Source `SetSession(s)`: `c.Set("session", s)`, then `c.Next()`. -/
def SetSession (s : Option session.Session) (k : List (String × gin.Value)) :
    List (String × gin.Value) :=
  gin.Keys.Set k "session" (gin.Value.ofHandle gin.Value.session s)

/-- The key bag `k` holds what the typed context `c` holds: `c.Get` answers the
    same for every key. -/
def Represents (k : List (String × gin.Value)) (c : gin.Context) : Prop :=
  ∀ key : String, gin.Keys.Get k key = gin.Context.Get c key

end bag

/-! ## Sample inputs -/

/-- A request with the given method and no credential. -/
def sampleRequest (method : String) : http.Request :=
  { Method := method, Header := [], TLS := false }

/-- A datastore that knows nobody and nothing. -/
def emptyDatastore : datastore.Datastore :=
  { UserLogin := fun _ => none, RepoName := fun _ _ => none, TokenLabel := fun _ _ => none }

/-- A session service that finds no token. -/
def noSession : session.Session :=
  { GetLogin := fun _ => none }

/-- A session service that yields the given token for every request. -/
def fixedSession (t : Token) : session.Session :=
  { GetLogin := fun _ => some t }

/-- A datastore with the user alice, one repository, and for every label a
    credential record issued at time 100. -/
def sampleDatastore : datastore.Datastore :=
  { UserLogin := fun login => if login == "alice" then some ⟨"alice", false⟩ else none,
    RepoName := fun owner name =>
      if owner == "octocat" && name == "hello" then some ⟨"octocat", "hello"⟩ else none,
    TokenLabel := fun _ label => some ⟨TokenLabel, "alice", label, 100⟩ }

/-- The context `c` with the credential records of its datastore replaced. -/
def withCredentials (c : gin.Context)
    (creds : Option User → String → Option Token) : gin.Context :=
  { c with datastore := c.datastore.map (fun ds => { ds with TokenLabel := creds }) }

/-- A context for the given method and datastore, every other key unset. -/
def sampleContext (method : String) (ds : datastore.Datastore) : gin.Context :=
  { Request := sampleRequest method, Params := [("owner", "octocat"), ("name", "hello")],
    queue := none, eventbus := none, remote := none, runner := none, settings := none,
    datastore := some ds, session := none, user := none, repo := none, perm := none,
    Header := [] }

/-- The context of an anonymous request to a repository whose permission was
    resolved to the given flags. -/
def anonymousContext (method : String) (m : Perm) : gin.Context :=
  { sampleContext method sampleDatastore with perm := some m }

/-- The context of a request by the user `u` with the resolved permission `m`. -/
def userContext (method : String) (u : User) (m : Option Perm) : gin.Context :=
  { sampleContext method sampleDatastore with user := some u, perm := m }

/-- The context of a request whose session service, wired into the context, yields
    the token `tok`. -/
def sessionContext (tok : Token) : gin.Context :=
  { sampleContext "POST" sampleDatastore with session := some (fixedSession tok) }

/-- The context of a request by the user alice against a datastore that knows no
    repository. -/
def strangerContext : gin.Context :=
  { sampleContext "GET" emptyDatastore with user := some ⟨"alice", false⟩ }

/-- A permission helper that grants nothing, whatever the caller and repository. -/
def denyAll : Option remote.Remote → Option User → Option Repo → Option Perm :=
  fun _ _ _ => some ⟨false, false, false⟩

/-- The context of a request against the datastore `ds` whose session service,
    wired into the context, yields the token `tok`. -/
def agentContext (ds : datastore.Datastore) (tok : Token) : gin.Context :=
  { sampleContext "POST" ds with session := some (fixedSession tok) }

/-! ## Helper lemmas -/

/-- The length test of the handler: `len(s) == 0` holds exactly for the empty string. -/
theorem length_beq_zero_iff (s : String) : (s.length == 0) = true ↔ s = "" := by
  rw [beq_iff_eq]
  constructor
  · intro h
    have h2 : s.data = [] := List.length_eq_zero.mp h
    exact String.ext h2
  · intro h
    subst h
    rfl

/-- Setting the user key to the value it already holds leaves the context as it was. -/
theorem set_user_same (c : gin.Context) (u : User) (h : c.user = some u) :
    { c with user := some u } = c := by
  cases c
  simp_all

/-- Outside the safe methods and with a resolved permission, `CheckPush` decides on
    the push flag alone: 401 for an absent user and 404 for a present one when the
    flag is false, and the chain continues when it is true. -/
theorem CheckPush_with_perm (c : gin.Context) (m : Perm)
    (hget : c.Request.Method ≠ "GET") (hopt : c.Request.Method ≠ "OPTIONS")
    (hm : ToPerm c = some m) :
    CheckPush c =
      if m.Push then Outcome.next c
      else if (ToUser c).isNone then Outcome.abort 401 c else Outcome.abort 404 c := by
  cases hu : ToUser c <;> cases hp : m.Push <;>
    simp [CheckPush, goAnd, derefPush, hget, hopt, hm, hu, hp]

/-- A login that is not the empty string fails the length test of `SetUser`. -/
theorem length_beq_zero_of_ne (s : String) (h : s ≠ "") : (s.length == 0) = false := by
  cases hb : (s.length == 0)
  · rfl
  · exact absurd ((length_beq_zero_iff s).mp hb) h

/-- Replacing the credential records commutes with setting the user key. -/
theorem setUserIfFound_withCredentials (c : gin.Context) (user : Option User)
    (creds : Option User → String → Option Token) :
    setUserIfFound (withCredentials c creds) user =
      withCredentials (setUserIfFound c user) creds := by
  cases user <;> rfl

/-! ## The access guards -/

/-- C1: `CheckPull` follows the Require-Pull truth table in every context: an absent
    user with an absent permission is answered 401, an absent user with pull=false
    401, a present user with pull=false 404, and pull=true lets the chain continue
    whether or not a user is present. -/
theorem CheckPull_truth_table (c : gin.Context) :
    (ToUser c = none → ToPerm c = none → CheckPull c = Outcome.abort 401 c) ∧
    (∀ m : Perm, ToUser c = none → ToPerm c = some m → m.Pull = false →
      CheckPull c = Outcome.abort 401 c) ∧
    (∀ (u : User) (m : Perm), ToUser c = some u → ToPerm c = some m → m.Pull = false →
      CheckPull c = Outcome.abort 404 c) ∧
    (∀ m : Perm, ToPerm c = some m → m.Pull = true → CheckPull c = Outcome.next c) := by
  refine ⟨?_, ?_, ?_, ?_⟩
  · intro hu hm
    simp [CheckPull, goAnd, hu, hm]
  · intro m hu hm hp
    simp [CheckPull, goAnd, derefPull, hu, hm, hp]
  · intro u m hu hm hp
    simp [CheckPull, goAnd, derefPull, hu, hm, hp]
  · intro m hm hp
    cases hu : ToUser c <;> simp [CheckPull, goAnd, derefPull, hu, hm, hp]

/-- Witness for C1: the four rows of the table at concrete contexts. -/
theorem CheckPull_truth_table_witness :
    CheckPull (sampleContext "GET" sampleDatastore) =
      Outcome.abort 401 (sampleContext "GET" sampleDatastore) ∧
    CheckPull (anonymousContext "GET" ⟨false, false, false⟩) =
      Outcome.abort 401 (anonymousContext "GET" ⟨false, false, false⟩) ∧
    CheckPull (userContext "GET" ⟨"alice", false⟩ (some ⟨false, false, false⟩)) =
      Outcome.abort 404 (userContext "GET" ⟨"alice", false⟩ (some ⟨false, false, false⟩)) ∧
    CheckPull (anonymousContext "GET" ⟨true, false, false⟩) =
      Outcome.next (anonymousContext "GET" ⟨true, false, false⟩) :=
  ⟨(CheckPull_truth_table _).1 rfl rfl,
   (CheckPull_truth_table _).2.1 ⟨false, false, false⟩ rfl rfl rfl,
   (CheckPull_truth_table _).2.2.1 ⟨"alice", false⟩ ⟨false, false, false⟩ rfl rfl rfl,
   (CheckPull_truth_table _).2.2.2 ⟨true, false, false⟩ rfl rfl⟩

/-- C2: for a POST request with no user and no resolved permission, `CheckPush`
    reads the push flag through the nil permission and panics, where the claim
    asks for 401; `CheckPull` answers the same context with 401. -/
theorem CheckPush_absent_perm_panics :
    (sampleContext "POST" sampleDatastore).Request.Method = "POST" ∧
    ToUser (sampleContext "POST" sampleDatastore) = none ∧
    ToPerm (sampleContext "POST" sampleDatastore) = none ∧
    CheckPush (sampleContext "POST" sampleDatastore) = Outcome.panic ∧
    CheckPull (sampleContext "POST" sampleDatastore) =
      Outcome.abort 401 (sampleContext "POST" sampleDatastore) :=
  ⟨rfl, rfl, rfl, rfl, rfl⟩

/-- C6: `MustAdmin` answers an absent user with 401, a present user who is not an
    administrator with 403, and lets a present administrator continue. -/
theorem MustAdmin_table (c : gin.Context) :
    (ToUser c = none → MustAdmin c = Outcome.abort 401 c) ∧
    (∀ u : User, ToUser c = some u → u.Admin = false → MustAdmin c = Outcome.abort 403 c) ∧
    (∀ u : User, ToUser c = some u → u.Admin = true → MustAdmin c = Outcome.next c) := by
  refine ⟨?_, ?_, ?_⟩
  · intro hu
    simp [MustAdmin, hu]
  · intro u hu ha
    simp [MustAdmin, hu, ha]
  · intro u hu ha
    simp only [MustAdmin, hu, ha, Bool.not_true, Bool.false_eq_true, if_false]
    rw [set_user_same c u hu]

/-- Witness for C6: the three rows at concrete contexts. -/
theorem MustAdmin_table_witness :
    MustAdmin (sampleContext "GET" sampleDatastore) =
      Outcome.abort 401 (sampleContext "GET" sampleDatastore) ∧
    MustAdmin (userContext "GET" ⟨"alice", false⟩ none) =
      Outcome.abort 403 (userContext "GET" ⟨"alice", false⟩ none) ∧
    MustAdmin (userContext "GET" ⟨"root", true⟩ none) =
      Outcome.next (userContext "GET" ⟨"root", true⟩ none) :=
  ⟨(MustAdmin_table _).1 rfl,
   (MustAdmin_table _).2.1 ⟨"alice", false⟩ rfl rfl,
   (MustAdmin_table _).2.2 ⟨"root", true⟩ rfl rfl⟩

/-- C8: for a GET or OPTIONS request `CheckPush` lets the chain continue whatever
    the user and the permission are, absent ones included. -/
theorem CheckPush_safe_method (c : gin.Context)
    (h : c.Request.Method = "GET" ∨ c.Request.Method = "OPTIONS") :
    CheckPush c = Outcome.next c := by
  rcases h with h | h <;> simp [CheckPush, h]

/-- Witness for C8: an anonymous OPTIONS request with no resolved permission. -/
theorem CheckPush_safe_method_witness :
    CheckPush (sampleContext "OPTIONS" sampleDatastore) =
      Outcome.next (sampleContext "OPTIONS" sampleDatastore) :=
  CheckPush_safe_method _ (Or.inr rfl)

/-- C7: with the session service wired into the context, `MustAgent` answers a
    request without a token with 401 and a token of another kind than Agent with
    500, and it lets the chain continue exactly when a token is present and its
    kind is Agent. -/
theorem MustAgent_table (c : gin.Context) (sess : session.Session)
    (hs : ToSession c = some sess) :
    (sess.GetLogin c.Request = none → MustAgent c = Outcome.abort 401 c) ∧
    (∀ tok : Token, sess.GetLogin c.Request = some tok → tok.Kind ≠ TokenAgent →
      MustAgent c = Outcome.abort 500 c) ∧
    ((MustAgent c).continues = true ↔
      ∃ tok : Token, sess.GetLogin c.Request = some tok ∧ tok.Kind = TokenAgent) ∧
    ((MustAgent c).continues = true → MustAgent c = Outcome.next c) := by
  refine ⟨?_, ?_, ?_, ?_⟩
  · intro h
    simp [MustAgent, hs, h]
  · intro tok h hk
    simp [MustAgent, hs, h, hk]
  · cases h : sess.GetLogin c.Request with
    | none => simp [MustAgent, hs, h, Outcome.continues]
    | some tok =>
      by_cases hk : tok.Kind = TokenAgent <;>
        simp [MustAgent, hs, h, hk, Outcome.continues]
  · cases h : sess.GetLogin c.Request with
    | none => simp [MustAgent, hs, h, Outcome.continues]
    | some tok =>
      by_cases hk : tok.Kind = TokenAgent <;>
        simp [MustAgent, hs, h, hk, Outcome.continues]

/-- Witness for C7: a session token on an agent route is answered 500. -/
theorem MustAgent_table_witness :
    MustAgent (sessionContext ⟨TokenSess, "alice", "", 7⟩) =
      Outcome.abort 500 (sessionContext ⟨TokenSess, "alice", "", 7⟩) :=
  (MustAgent_table (sessionContext ⟨TokenSess, "alice", "", 7⟩)
    (fixedSession ⟨TokenSess, "alice", "", 7⟩) rfl).2.1
    ⟨TokenSess, "alice", "", 7⟩ rfl (by decide)

/-! ## The resolving stages -/

/-- C4: with the datastore wired into the context, `SetRepo` answers a failed
    repository lookup with 404 when a user is present and with 401 when none is,
    and after a successful lookup it stores the repository found under the repo key
    and lets the chain continue. -/
theorem SetRepo_table (c : gin.Context) (ds : datastore.Datastore)
    (hds : ToDatastore c = some ds) :
    (∀ u : User, ds.RepoName (gin.Params.ByName c.Params "owner")
        (gin.Params.ByName c.Params "name") = none → ToUser c = some u →
      SetRepo c = Outcome.abort 404 c) ∧
    (ds.RepoName (gin.Params.ByName c.Params "owner")
        (gin.Params.ByName c.Params "name") = none → ToUser c = none →
      SetRepo c = Outcome.abort 401 c) ∧
    (∀ r : Repo, ds.RepoName (gin.Params.ByName c.Params "owner")
        (gin.Params.ByName c.Params "name") = some r →
      SetRepo c = Outcome.next { c with repo := some r } ∧
      ToRepo { c with repo := some r } = some r) := by
  refine ⟨?_, ?_, ?_⟩
  · intro u hr hu
    simp [SetRepo, hds, hr, hu]
  · intro hr hu
    simp [SetRepo, hds, hr, hu]
  · intro r hr
    simp [SetRepo, hds, hr, ToRepo]

/-- Witness for C4: an unknown repository asked for by a user and anonymously, and
    a known repository. -/
theorem SetRepo_table_witness :
    SetRepo strangerContext = Outcome.abort 404 strangerContext ∧
    SetRepo (sampleContext "GET" emptyDatastore) =
      Outcome.abort 401 (sampleContext "GET" emptyDatastore) ∧
    SetRepo (sampleContext "GET" sampleDatastore) =
      Outcome.next { sampleContext "GET" sampleDatastore with
        repo := some ⟨"octocat", "hello"⟩ } :=
  ⟨(SetRepo_table strangerContext emptyDatastore rfl).1 ⟨"alice", false⟩ rfl rfl,
   (SetRepo_table (sampleContext "GET" emptyDatastore) emptyDatastore rfl).2.1 rfl rfl,
   ((SetRepo_table (sampleContext "GET" sampleDatastore) sampleDatastore rfl).2.2
      ⟨"octocat", "hello"⟩ rfl).1⟩

/-- C10: with the datastore wired into the context, when the session service
    yields no token, or a token whose login is empty, `SetUser` lets the chain
    continue with the context unchanged; in particular an absent user stays
    absent. -/
theorem SetUser_no_credential (s : session.Session) (c : gin.Context)
    (ds : datastore.Datastore) (hds : ToDatastore c = some ds)
    (h : s.GetLogin c.Request = none ∨
      ∃ tok : Token, s.GetLogin c.Request = some tok ∧ tok.Login = "") :
    SetUser s c = Outcome.next c ∧
    (ToUser c = none → ∀ c1 : gin.Context, SetUser s c = Outcome.next c1 → ToUser c1 = none) := by
  have key : SetUser s c = Outcome.next c := by
    rcases h with h | ⟨tok, h, hl⟩
    · simp [SetUser, hds, h]
    · simp [SetUser, hds, h, hl]
  refine ⟨key, ?_⟩
  intro hu c1 hc1
  rw [key] at hc1
  injection hc1 with hc
  rw [← hc]
  exact hu

/-- Witness for C10: a request without a token, with the datastore wired. -/
theorem SetUser_no_credential_witness :
    SetUser noSession (sampleContext "GET" sampleDatastore) =
      Outcome.next (sampleContext "GET" sampleDatastore) :=
  (SetUser_no_credential noSession (sampleContext "GET" sampleDatastore) sampleDatastore rfl
    (Or.inl rfl)).1

/-- C5: for a Session token with a non-empty login `SetUser` always lets the chain
    continue, with the user key set from the user lookup alone; replacing the stored
    credential records by any others gives the same outcome and the same resulting
    context (up to the replaced records themselves). -/
theorem SetUser_session_ignores_credentials (s : session.Session) (c : gin.Context)
    (ds : datastore.Datastore) (tok : Token)
    (creds : Option User → String → Option Token)
    (hds : ToDatastore c = some ds) (htok : s.GetLogin c.Request = some tok)
    (hkind : tok.Kind = TokenSess) (hlogin : tok.Login ≠ "") :
    SetUser s c = Outcome.next (setUserIfFound c (ds.UserLogin tok.Login)) ∧
    SetUser s (withCredentials c creds) =
      Outcome.next (withCredentials (setUserIfFound c (ds.UserLogin tok.Login)) creds) ∧
    ToUser (withCredentials (setUserIfFound c (ds.UserLogin tok.Login)) creds) =
      ToUser (setUserIfFound c (ds.UserLogin tok.Login)) := by
  have hl := length_beq_zero_of_ne tok.Login hlogin
  have hds2 : c.datastore = some ds := hds
  refine ⟨?_, ?_, ?_⟩
  · simp [SetUser, hds, htok, hl, hkind]
  · rw [← setUserIfFound_withCredentials]
    have h1 : ToDatastore (withCredentials c creds) =
        some { ds with TokenLabel := creds } := by
      simp [ToDatastore, withCredentials, hds2]
    have h2 : s.GetLogin (withCredentials c creds).Request = some tok := htok
    simp [SetUser, h1, h2, hl, hkind]
  · cases ds.UserLogin tok.Login <;> rfl

/-- Witness for C5: a session of alice, with the credential records replaced by
    none at all. -/
theorem SetUser_session_ignores_credentials_witness :
    SetUser (fixedSession ⟨TokenSess, "alice", "", 7⟩)
        (withCredentials (sampleContext "GET" sampleDatastore) (fun _ _ => none)) =
      Outcome.next (withCredentials
        (setUserIfFound (sampleContext "GET" sampleDatastore) (some ⟨"alice", false⟩))
        (fun _ _ => none)) :=
  (SetUser_session_ignores_credentials (fixedSession ⟨TokenSess, "alice", "", 7⟩)
    (sampleContext "GET" sampleDatastore) sampleDatastore ⟨TokenSess, "alice", "", 7⟩
    (fun _ _ => none) rfl rfl rfl (by decide)).2.1

/-- C3, as the code has it: with the datastore wired into the context, for a Label
    or Agent token with a non-empty login, when the datastore has no credential
    record for the looked-up user and the token's label, or the record's issued
    timestamp differs from the token's, `SetUser` aborts with 403 and does not
    continue the chain; the repo and perm keys are as they were. -/
theorem SetUser_revoked_forbidden (s : session.Session) (c : gin.Context)
    (ds : datastore.Datastore) (tok : Token)
    (hds : ToDatastore c = some ds) (htok : s.GetLogin c.Request = some tok)
    (hlogin : tok.Login ≠ "")
    (hkind : tok.Kind = TokenLabel ∨ tok.Kind = TokenAgent)
    (hrev : ds.TokenLabel (ds.UserLogin tok.Login) tok.Label = none ∨
      ∃ t : Token, ds.TokenLabel (ds.UserLogin tok.Login) tok.Label = some t ∧
        t.Issued ≠ tok.Issued) :
    SetUser s c = Outcome.abort 403 (setUserIfFound c (ds.UserLogin tok.Login)) ∧
    (SetUser s c).continues = false ∧
    ToRepo (setUserIfFound c (ds.UserLogin tok.Login)) = ToRepo c ∧
    ToPerm (setUserIfFound c (ds.UserLogin tok.Login)) = ToPerm c := by
  have hl := length_beq_zero_of_ne tok.Login hlogin
  have key : SetUser s c = Outcome.abort 403 (setUserIfFound c (ds.UserLogin tok.Login)) := by
    rcases hrev with hr | ⟨t, hr, hne⟩
    · rcases hkind with hk | hk <;> simp [SetUser, hds, htok, hl, hk, hr]
    · rcases hkind with hk | hk <;> simp [SetUser, hds, htok, hl, hk, hr, hne]
  refine ⟨key, ?_, ?_, ?_⟩
  · rw [key]
    rfl
  · cases ds.UserLogin tok.Login <;> rfl
  · cases ds.UserLogin tok.Login <;> rfl

/-- Witness for C3: a Label token of alice that claims issued=200 while the stored
    record has issued=100. -/
theorem SetUser_revoked_forbidden_witness :
    SetUser (fixedSession ⟨TokenLabel, "alice", "ci", 200⟩)
        (sampleContext "POST" sampleDatastore) =
      Outcome.abort 403
        (setUserIfFound (sampleContext "POST" sampleDatastore) (some ⟨"alice", false⟩)) :=
  (SetUser_revoked_forbidden (fixedSession ⟨TokenLabel, "alice", "ci", 200⟩)
    (sampleContext "POST" sampleDatastore) sampleDatastore ⟨TokenLabel, "alice", "ci", 200⟩
    rfl rfl (by decide) (Or.inl rfl)
    (Or.inr ⟨⟨TokenLabel, "alice", "ci", 100⟩, rfl, by decide⟩)).1

/-- C3 fails as stated: a Label token with an empty login, whose stored record has
    issued=100 while the token claims issued=200, is not answered 403; `SetUser`
    lets the chain continue. -/
theorem SetUser_revoked_empty_login_continues :
    sampleDatastore.TokenLabel (sampleDatastore.UserLogin "") "ci" =
      some ⟨TokenLabel, "alice", "ci", 100⟩ ∧
    (100 : Int) ≠ 200 ∧
    SetUser (fixedSession ⟨TokenLabel, "", "ci", 200⟩) (sampleContext "POST" sampleDatastore) =
      Outcome.next (sampleContext "POST" sampleDatastore) :=
  ⟨rfl, by decide, rfl⟩

/-- C9, as the code has it: with the datastore wired into the context, for a token
    with a non-empty login whose user lookup fails, `SetUser` leaves the context
    (and so the user key) as it was; a Session token continues; a Label or Agent
    token still goes through the revocation check, with the absent user: the chain
    continues when a credential record with the token's issued timestamp is found,
    and the request is aborted with 403 otherwise. -/
theorem SetUser_lookup_failure (s : session.Session) (c : gin.Context)
    (ds : datastore.Datastore) (tok : Token)
    (hds : ToDatastore c = some ds) (htok : s.GetLogin c.Request = some tok)
    (hlogin : tok.Login ≠ "") (hfail : ds.UserLogin tok.Login = none) :
    (tok.Kind = TokenSess → SetUser s c = Outcome.next c) ∧
    (tok.Kind ≠ TokenSess →
      (∃ t : Token, ds.TokenLabel none tok.Label = some t ∧ t.Issued = tok.Issued) →
      SetUser s c = Outcome.next c) ∧
    (tok.Kind ≠ TokenSess →
      (ds.TokenLabel none tok.Label = none ∨
        ∃ t : Token, ds.TokenLabel none tok.Label = some t ∧ t.Issued ≠ tok.Issued) →
      SetUser s c = Outcome.abort 403 c) := by
  have hl := length_beq_zero_of_ne tok.Login hlogin
  refine ⟨?_, ?_, ?_⟩
  · intro hk
    simp [SetUser, hds, htok, hl, hk, hfail, setUserIfFound]
  · rintro hk ⟨t, hr, he⟩
    cases hkind : tok.Kind with
    | TokenSess => exact absurd hkind hk
    | TokenLabel => simp [SetUser, hds, htok, hl, hkind, hfail, setUserIfFound, hr, he]
    | TokenAgent => simp [SetUser, hds, htok, hl, hkind, hfail, setUserIfFound, hr, he]
  · intro hk hrev
    cases hkind : tok.Kind with
    | TokenSess => exact absurd hkind hk
    | TokenLabel =>
      rcases hrev with hr | ⟨t, hr, hne⟩
      · simp [SetUser, hds, htok, hl, hkind, hfail, setUserIfFound, hr]
      · simp [SetUser, hds, htok, hl, hkind, hfail, setUserIfFound, hr, hne]
    | TokenAgent =>
      rcases hrev with hr | ⟨t, hr, hne⟩
      · simp [SetUser, hds, htok, hl, hkind, hfail, setUserIfFound, hr]
      · simp [SetUser, hds, htok, hl, hkind, hfail, setUserIfFound, hr, hne]

/-- Witness for C9: a session of the unknown login bob continues anonymously. -/
theorem SetUser_lookup_failure_witness :
    SetUser (fixedSession ⟨TokenSess, "bob", "", 7⟩) (sampleContext "GET" sampleDatastore) =
      Outcome.next (sampleContext "GET" sampleDatastore) :=
  (SetUser_lookup_failure (fixedSession ⟨TokenSess, "bob", "", 7⟩)
    (sampleContext "GET" sampleDatastore) sampleDatastore ⟨TokenSess, "bob", "", 7⟩
    rfl rfl (by decide) rfl).1 rfl

/-- C9 fails as stated: for a Label token of the unknown login bob, with no
    credential record stored, the failed user lookup is followed by an abort with
    403 and not by an anonymous continuation. -/
theorem SetUser_lookup_failure_forbidden :
    emptyDatastore.UserLogin "bob" = none ∧
    SetUser (fixedSession ⟨TokenLabel, "bob", "ci", 100⟩) (sampleContext "GET" emptyDatastore) =
      Outcome.abort 403 (sampleContext "GET" emptyDatastore) :=
  ⟨rfl, rfl⟩

/-! ## Response hardening -/

/-- Reading a header key right after it was written gives the written values. -/
theorem Values_put_same (h : List (String × List String)) (k : String) (vs : List String) :
    http.Header.Values (http.Header.put h k vs) k = vs := by
  simp [http.Header.Values, http.Header.put]

/-- Writing a header key leaves the values of every other key as they were. -/
theorem Values_put_other (h : List (String × List String)) (k k2 : String)
    (vs : List String) (hne : k ≠ k2) :
    http.Header.Values (http.Header.put h k vs) k2 = http.Header.Values h k2 := by
  have hfind : ∀ l : List (String × List String),
      (l.filter (fun e => e.1 != k)).find? (fun e => e.1 == k2) =
        l.find? (fun e => e.1 == k2) := by
    intro l
    induction l with
    | nil => rfl
    | cons e l ih =>
      by_cases hk : e.1 = k
      · have hk2 : e.1 ≠ k2 := by
          rw [hk]
          exact hne
        rw [List.filter_cons_of_neg (by simp [hk]), List.find?_cons_of_neg _ (by simp [hk2])]
        exact ih
      · rw [List.filter_cons_of_pos (by simp [hk])]
        by_cases hk2 : e.1 = k2
        · rw [List.find?_cons_of_pos _ (by simp [hk2]), List.find?_cons_of_pos _ (by simp [hk2])]
        · rw [List.find?_cons_of_neg _ (by simp [hk2]), List.find?_cons_of_neg _ (by simp [hk2])]
          exact ih
  simp only [http.Header.Values, http.Header.put]
  rw [List.find?_cons_of_neg _ (by simpa using hne)]
  rw [hfind h]

/-- The values of a key after `Header.Add`. -/
theorem Values_Add (h : List (String × List String)) (key value k2 : String) :
    http.Header.Values (http.Header.Add h key value) k2 =
      if textproto.CanonicalMIMEHeaderKey key = k2 then http.Header.Values h k2 ++ [value]
      else http.Header.Values h k2 := by
  by_cases hk : textproto.CanonicalMIMEHeaderKey key = k2
  · subst hk
    simp [http.Header.Add, Values_put_same]
  · simp [http.Header.Add, Values_put_other _ _ _ _ hk, hk]

/-- The values of a key after `Header.Set`. -/
theorem Values_Set (h : List (String × List String)) (key value k2 : String) :
    http.Header.Values (http.Header.Set h key value) k2 =
      if textproto.CanonicalMIMEHeaderKey key = k2 then [value]
      else http.Header.Values h k2 := by
  by_cases hk : textproto.CanonicalMIMEHeaderKey key = k2
  · subst hk
    simp [http.Header.Set, Values_put_same]
  · simp [http.Header.Set, Values_put_other _ _ _ _ hk, hk]

/-- The keys `SetHeaders` writes, in their canonical spelling. -/
theorem canonical_keys :
    textproto.CanonicalMIMEHeaderKey "Access-Control-Allow-Origin" =
      "Access-Control-Allow-Origin" ∧
    textproto.CanonicalMIMEHeaderKey "X-Frame-Options" = "X-Frame-Options" ∧
    textproto.CanonicalMIMEHeaderKey "X-Content-Type-Options" = "X-Content-Type-Options" ∧
    textproto.CanonicalMIMEHeaderKey "X-XSS-Protection" = "X-Xss-Protection" ∧
    textproto.CanonicalMIMEHeaderKey "Cache-Control" = "Cache-Control" ∧
    textproto.CanonicalMIMEHeaderKey "Last-Modified" = "Last-Modified" ∧
    textproto.CanonicalMIMEHeaderKey "Expires" = "Expires" ∧
    textproto.CanonicalMIMEHeaderKey "Strict-Transport-Security" =
      "Strict-Transport-Security" := by
  decide

/-- C14: `SetHeaders` always lets the chain continue; afterwards the response
    headers hold no-store under Cache-Control and DENY under X-Frame-Options, and
    the values under Strict-Transport-Security have gained max-age=31536000 when
    the connection is TLS and are as they were when it is not. -/
theorem SetHeaders_table (now : String) (c : gin.Context) :
    ∃ c1 : gin.Context, SetHeaders now c = Outcome.next c1 ∧
      "no-store" ∈ http.Header.Values c1.Header "Cache-Control" ∧
      "DENY" ∈ http.Header.Values c1.Header "X-Frame-Options" ∧
      http.Header.Values c1.Header "Strict-Transport-Security" =
        http.Header.Values c.Header "Strict-Transport-Security" ++
          (if c.Request.TLS then ["max-age=31536000"] else []) := by
  obtain ⟨k1, k2, k3, k4, k5, k6, k7, k8⟩ := canonical_keys
  refine ⟨_, rfl, ?_, ?_, ?_⟩
  · cases hT : c.Request.TLS <;> simp [Values_Add, Values_Set, k1, k2, k3, k4, k5, k6, k7, k8]
  · cases hT : c.Request.TLS <;> simp [Values_Add, Values_Set, k1, k2, k3, k4, k5, k6, k7, k8]
  · cases hT : c.Request.TLS <;> simp [Values_Add, Values_Set, k1, k2, k3, k4, k5, k6, k7, k8]

/-- C18: the values `SetHeaders` adds under Cache-Control are five, not four: after
    no-cache, no-store, max-age=0 and must-revalidate it adds the text value. -/
theorem SetHeaders_cache_control (now : String) (c : gin.Context) :
    ∃ c1 : gin.Context, SetHeaders now c = Outcome.next c1 ∧
      http.Header.Values c1.Header "Cache-Control" =
        http.Header.Values c.Header "Cache-Control" ++
          ["no-cache", "no-store", "max-age=0", "must-revalidate", "value"] := by
  obtain ⟨k1, k2, k3, k4, k5, k6, k7, k8⟩ := canonical_keys
  refine ⟨_, rfl, ?_⟩
  cases hT : c.Request.TLS <;> simp [Values_Add, Values_Set, k1, k2, k3, k4, k5, k6, k7, k8]

/-! ## Further guards -/

/-- C11: `MustUser` terminates the request with 401 exactly when the user is
    absent, and lets the chain continue when a user is present. -/
theorem MustUser_table (c : gin.Context) :
    ((MustUser c).status = some 401 ↔ ToUser c = none) ∧
    (ToUser c = none → MustUser c = Outcome.abort 401 c) ∧
    (∀ u : User, ToUser c = some u → MustUser c = Outcome.next c) := by
  refine ⟨?_, ?_, ?_⟩
  · cases hu : ToUser c <;> simp [MustUser, hu, Outcome.status]
  · intro hu
    simp [MustUser, hu]
  · intro u hu
    simp only [MustUser, hu]
    rw [set_user_same c u hu]

/-- Witness for C11: an anonymous request and a request by alice. -/
theorem MustUser_table_witness :
    MustUser (sampleContext "GET" sampleDatastore) =
      Outcome.abort 401 (sampleContext "GET" sampleDatastore) ∧
    MustUser (userContext "GET" ⟨"alice", false⟩ none) =
      Outcome.next (userContext "GET" ⟨"alice", false⟩ none) :=
  ⟨(MustUser_table (sampleContext "GET" sampleDatastore)).2.1 rfl,
   (MustUser_table (userContext "GET" ⟨"alice", false⟩ none)).2.2 ⟨"alice", false⟩ rfl⟩

/-- The exact condition under which `CheckPull` panics: a user is present and the
    permission is absent. -/
theorem CheckPull_panic_iff (c : gin.Context) :
    CheckPull c = Outcome.panic ↔ (ToUser c).isSome = true ∧ ToPerm c = none := by
  cases hu : ToUser c <;> cases hm : ToPerm c <;>
    simp [CheckPull, goAnd, derefPull, hu, hm]
  all_goals rename_i m
  all_goals cases hp : m.Pull <;> simp

/-- The exact condition under which `CheckPush` panics: the method is neither GET
    nor OPTIONS and the permission is absent. -/
theorem CheckPush_panic_iff (c : gin.Context) :
    CheckPush c = Outcome.panic ↔
      (c.Request.Method ≠ "GET" ∧ c.Request.Method ≠ "OPTIONS") ∧ ToPerm c = none := by
  by_cases hget : c.Request.Method = "GET"
  · simp [CheckPush, hget]
  · by_cases hopt : c.Request.Method = "OPTIONS"
    · simp [CheckPush, hopt]
    · cases hu : ToUser c <;> cases hm : ToPerm c <;>
        simp [CheckPush, goAnd, derefPush, hu, hm, hget, hopt]
      all_goals rename_i m
      all_goals cases hp : m.Push <;> simp

/-- C13: the guards are not total. `CheckPull` panics for a present user with an
    absent permission, and `CheckPush` panics outside the safe methods for an
    absent permission, with or without a user. -/
theorem guards_panic_on_absent_perm :
    ToUser (userContext "GET" ⟨"alice", false⟩ none) = some ⟨"alice", false⟩ ∧
    ToPerm (userContext "GET" ⟨"alice", false⟩ none) = none ∧
    CheckPull (userContext "GET" ⟨"alice", false⟩ none) = Outcome.panic ∧
    CheckPush (userContext "POST" ⟨"alice", false⟩ none) = Outcome.panic ∧
    ToUser (sampleContext "DELETE" sampleDatastore) = none ∧
    ToPerm (sampleContext "DELETE" sampleDatastore) = none ∧
    CheckPush (sampleContext "DELETE" sampleDatastore) = Outcome.panic :=
  ⟨rfl, rfl, rfl, rfl, rfl, rfl, rfl⟩

/-- The statuses of `SetRepo`: 401 or 404. -/
theorem SetRepo_status (c : gin.Context) (code : Nat)
    (h : (SetRepo c).status = some code) : code = 401 ∨ code = 404 := by
  unfold SetRepo at h
  cases hds : ToDatastore c with
  | none => simp [hds, Outcome.status] at h
  | some ds =>
    simp only [hds] at h
    split at h
    · simp [Outcome.status] at h
      omega
    · split at h
      · simp [Outcome.status] at h
        omega
      · simp [Outcome.status] at h

/-- The statuses of `CheckPull`: 401 or 404. -/
theorem CheckPull_status (c : gin.Context) (code : Nat)
    (h : (CheckPull c).status = some code) : code = 401 ∨ code = 404 := by
  unfold CheckPull at h
  cases hu : ToUser c <;> cases hm : ToPerm c <;>
    simp [goAnd, derefPull, hu, hm, Outcome.status] at h
  · omega
  · rename_i m
    cases hp : m.Pull <;> simp [hp] at h
    omega
  · rename_i u m
    cases hp : m.Pull <;> simp [hp] at h
    omega

/-- The statuses of `CheckPush`: 401 or 404. -/
theorem CheckPush_status (c : gin.Context) (code : Nat)
    (h : (CheckPush c).status = some code) : code = 401 ∨ code = 404 := by
  unfold CheckPush at h
  split at h
  · simp [Outcome.status] at h
  · cases hu : ToUser c <;> cases hm : ToPerm c <;>
      simp [goAnd, derefPush, hu, hm, Outcome.status] at h
    · rename_i m
      cases hp : m.Push <;> simp [hp] at h
      omega
    · rename_i u m
      cases hp : m.Push <;> simp [hp] at h
      omega

/-- C12: for one caller, the chain `SetRepo`, `SetPerm`, `CheckPull` gives the same
    status when the repository is not found as when it is found and the resolved
    permission has pull=false: 404 when a user is present and 401 when none is;
    and none of `SetRepo`, `CheckPull`, `CheckPush` terminates with 403. -/
theorem repoPullChain_hides_existence
    (perms : Option remote.Remote → Option User → Option Repo → Option Perm)
    (c1 c2 : gin.Context) (ds1 ds2 : datastore.Datastore) (r : Repo) (m : Perm)
    (hds1 : ToDatastore c1 = some ds1) (hds2 : ToDatastore c2 = some ds2)
    (hcaller : ToUser c1 = ToUser c2)
    (hmissing : ds1.RepoName (gin.Params.ByName c1.Params "owner")
      (gin.Params.ByName c1.Params "name") = none)
    (hfound : ds2.RepoName (gin.Params.ByName c2.Params "owner")
      (gin.Params.ByName c2.Params "name") = some r)
    (hperm : perms (ToRemote c2) (ToUser c2) (some r) = some m)
    (hpull : m.Pull = false) :
    (repoPullChain perms c1).status = (repoPullChain perms c2).status ∧
    (repoPullChain perms c1).status =
      (if (ToUser c1).isSome then some 404 else some 401) ∧
    (∀ c : gin.Context, (SetRepo c).status ≠ some 403 ∧
      (CheckPull c).status ≠ some 403 ∧ (CheckPush c).status ≠ some 403) := by
  have run1 : (repoPullChain perms c1).status =
      (if (ToUser c1).isSome then some 404 else some 401) := by
    cases hu : ToUser c1 <;>
      simp [repoPullChain, SetRepo, hds1, hmissing, hu, Outcome.andThen, Outcome.status]
  have hperm2 : perms c2.remote c2.user (some r) = some m := hperm
  have run2 : (repoPullChain perms c2).status =
      (if (ToUser c2).isSome then some 404 else some 401) := by
    cases hu : ToUser c2 <;>
      simp [repoPullChain, SetRepo, SetPerm, CheckPull, hds2, hfound, hu, Outcome.andThen,
        Outcome.status, ToRemote, ToRepo, ToUser, ToPerm, hperm2, goAnd, derefPull, hpull] <;>
      simp [ToUser] at hu <;>
      simp [hu, hperm2, hpull, Outcome.status]
  refine ⟨?_, run1, ?_⟩
  · rw [run1, run2, hcaller]
  · intro c
    refine ⟨?_, ?_, ?_⟩
    · intro h
      have := SetRepo_status c 403 h
      omega
    · intro h
      have := CheckPull_status c 403 h
      omega
    · intro h
      have := CheckPush_status c 403 h
      omega

/-- Witness for C12: an anonymous caller, a datastore without the repository and
    one with it, and a permission helper that grants nothing. -/
theorem repoPullChain_hides_existence_witness :
    (repoPullChain denyAll (sampleContext "GET" emptyDatastore)).status = some 401 ∧
    (repoPullChain denyAll (sampleContext "GET" sampleDatastore)).status = some 401 :=
  have h := repoPullChain_hides_existence denyAll (sampleContext "GET" emptyDatastore)
    (sampleContext "GET" sampleDatastore) emptyDatastore sampleDatastore
    ⟨"octocat", "hello"⟩ ⟨false, false, false⟩ rfl rfl rfl rfl rfl rfl rfl
  ⟨h.2.1, h.1.symm.trans h.2.1⟩

/-- The only status of `SetUser` is the 403 of the revocation check, reached by a
    token with a non-empty login whose kind is not Session. -/
theorem SetUser_status (s : session.Session) (c : gin.Context) (code : Nat)
    (h : (SetUser s c).status = some code) :
    code = 403 ∧ ∃ tok : Token, s.GetLogin c.Request = some tok ∧ tok.Login ≠ "" ∧
      tok.Kind ≠ TokenSess := by
  unfold SetUser at h
  cases hds : ToDatastore c with
  | none => simp [hds, Outcome.status] at h
  | some ds =>
    cases htok : s.GetLogin c.Request with
    | none => simp [hds, htok, Outcome.status] at h
    | some tok =>
      by_cases hl : tok.Login = ""
      · simp [hds, htok, hl, Outcome.status] at h
      · have hlen := length_beq_zero_of_ne tok.Login hl
        cases hk : tok.Kind with
        | TokenSess => simp [hds, htok, hlen, hk, Outcome.status] at h
        | TokenLabel =>
          refine ⟨?_, tok, rfl, hl, by simp [hk]⟩
          simp only [hds, htok, hlen, hk] at h
          cases hr : ds.TokenLabel (ds.UserLogin tok.Login) tok.Label with
          | none =>
            simp [hr, Outcome.status] at h
            omega
          | some t =>
            by_cases hi : t.Issued = tok.Issued
            · simp [hr, hi, Outcome.status] at h
            · simp [hr, hi, Outcome.status] at h
              omega
        | TokenAgent =>
          refine ⟨?_, tok, rfl, hl, by simp [hk]⟩
          simp only [hds, htok, hlen, hk] at h
          cases hr : ds.TokenLabel (ds.UserLogin tok.Login) tok.Label with
          | none =>
            simp [hr, Outcome.status] at h
            omega
          | some t =>
            by_cases hi : t.Issued = tok.Issued
            · simp [hr, hi, Outcome.status] at h
            · simp [hr, hi, Outcome.status] at h
              omega

/-- C15: every status a stage or guard terminates a request with is one of 401,
    403, 404, 500. `SetUser` gives only 403, and only from its revocation check;
    `SetRepo`, `CheckPull` and `CheckPush` give 401 or 404; `MustUser` gives 401;
    `MustAdmin` gives 401 or 403; `MustAgent` gives 401 or 500. So 403 comes only
    from `SetUser` and `MustAdmin`, and 500 only from `MustAgent`. -/
theorem stage_statuses (s : session.Session) (c : gin.Context) (code : Nat) :
    ((SetUser s c).status = some code →
      code = 403 ∧ ∃ tok : Token, s.GetLogin c.Request = some tok ∧ tok.Login ≠ "" ∧
        tok.Kind ≠ TokenSess) ∧
    ((SetRepo c).status = some code → code = 401 ∨ code = 404) ∧
    ((MustUser c).status = some code → code = 401) ∧
    ((MustAdmin c).status = some code → code = 401 ∨ code = 403) ∧
    ((MustAgent c).status = some code → code = 401 ∨ code = 500) ∧
    ((CheckPull c).status = some code → code = 401 ∨ code = 404) ∧
    ((CheckPush c).status = some code → code = 401 ∨ code = 404) := by
  refine ⟨SetUser_status s c code, SetRepo_status c code, ?_, ?_, ?_,
    CheckPull_status c code, CheckPush_status c code⟩
  · intro h
    cases hu : ToUser c <;> simp [MustUser, hu, Outcome.status] at h
    omega
  · intro h
    cases hu : ToUser c with
    | none =>
      simp [MustAdmin, hu, Outcome.status] at h
      omega
    | some u =>
      cases ha : u.Admin <;> simp [MustAdmin, hu, ha, Outcome.status] at h
      omega
  · intro h
    cases hs : ToSession c with
    | none => simp [MustAgent, hs, Outcome.status] at h
    | some sess =>
      cases ht : sess.GetLogin c.Request with
      | none =>
        simp [MustAgent, hs, ht, Outcome.status] at h
        omega
      | some tok =>
        by_cases hk : tok.Kind = TokenAgent
        · simp [MustAgent, hs, ht, hk, Outcome.status] at h
        · simp [MustAgent, hs, ht, hk, Outcome.status] at h
          omega

/-- Witness for C15: the 403 of `MustAdmin` for alice, who is not an
    administrator. -/
theorem stage_statuses_witness :
    (MustAdmin (userContext "GET" ⟨"alice", false⟩ none)).status = some 403 ∧
    ((403 : Nat) = 401 ∨ (403 : Nat) = 403) :=
  ⟨rfl, (stage_statuses noSession (userContext "GET" ⟨"alice", false⟩ none) 403).2.2.2.1 rfl⟩

/-- C16: with the datastore wired into the context, for a Label or Agent token with
    a non-empty login whose user lookup succeeds and whose credential record for
    that user and the token's label exists, `SetUser` continues exactly when the
    record's issued timestamp equals the token's, and then the user key holds the
    user record looked up; no other field of the record is tested. -/
theorem SetUser_valid_credential (s : session.Session) (c : gin.Context)
    (ds : datastore.Datastore) (tok : Token) (u : User) (t : Token)
    (hds : ToDatastore c = some ds) (htok : s.GetLogin c.Request = some tok)
    (hlogin : tok.Login ≠ "")
    (hkind : tok.Kind = TokenLabel ∨ tok.Kind = TokenAgent)
    (huser : ds.UserLogin tok.Login = some u)
    (hrec : ds.TokenLabel (some u) tok.Label = some t) :
    (t.Issued = tok.Issued →
      SetUser s c = Outcome.next { c with user := some u } ∧
      ToUser { c with user := some u } = some u) ∧
    ((SetUser s c).continues = true ↔ t.Issued = tok.Issued) := by
  have hl := length_beq_zero_of_ne tok.Login hlogin
  refine ⟨?_, ?_⟩
  · intro hi
    refine ⟨?_, rfl⟩
    rcases hkind with hk | hk <;>
      simp [SetUser, hds, htok, hl, hk, huser, hrec, hi, setUserIfFound]
  · by_cases hi : t.Issued = tok.Issued
    · rcases hkind with hk | hk <;>
        simp [SetUser, hds, htok, hl, hk, huser, hrec, hi, setUserIfFound, Outcome.continues]
    · rcases hkind with hk | hk <;>
        simp [SetUser, hds, htok, hl, hk, huser, hrec, hi, setUserIfFound, Outcome.continues]

/-- Witness for C16: a Label token of alice issued at 100, as the stored record. -/
theorem SetUser_valid_credential_witness :
    SetUser (fixedSession ⟨TokenLabel, "alice", "ci", 100⟩)
        (sampleContext "POST" sampleDatastore) =
      Outcome.next { sampleContext "POST" sampleDatastore with
        user := some ⟨"alice", false⟩ } :=
  ((SetUser_valid_credential (fixedSession ⟨TokenLabel, "alice", "ci", 100⟩)
    (sampleContext "POST" sampleDatastore) sampleDatastore ⟨TokenLabel, "alice", "ci", 100⟩
    ⟨"alice", false⟩ ⟨TokenLabel, "alice", "ci", 100⟩ rfl rfl (by decide) (Or.inl rfl)
    rfl rfl).1 rfl).1

/-- Setting the user key after the lookup touches neither the request nor the
    session key. -/
theorem setUserIfFound_frame (c : gin.Context) (user : Option User) :
    (setUserIfFound c user).Request = c.Request ∧
    (setUserIfFound c user).session = c.session := by
  cases user <;> exact ⟨rfl, rfl⟩

/-- When `SetUser` continues, the request and the session key are as before. -/
theorem SetUser_next_frame (s : session.Session) (c c1 : gin.Context)
    (h : SetUser s c = Outcome.next c1) :
    c1.Request = c.Request ∧ c1.session = c.session := by
  unfold SetUser at h
  cases hds : ToDatastore c with
  | none => simp [hds] at h
  | some ds =>
    simp only [hds] at h
    split at h
    · injection h with h
      subst h
      exact ⟨rfl, rfl⟩
    · split at h
      · injection h with h
        subst h
        exact ⟨rfl, rfl⟩
      · split at h
        · injection h with h
          subst h
          exact setUserIfFound_frame c _
        · split at h
          · simp at h
          · split at h
            · simp at h
            · injection h with h
              subst h
              exact setUserIfFound_frame c _

/-- C17: the access guards leave the context as it was: whenever `MustUser`,
    `MustAdmin`, `MustAgent`, `CheckPull` or `CheckPush` continues or terminates
    with a status, the context it hands on is the context it received, every key
    included. -/
theorem guards_leave_context (c c1 : gin.Context) :
    ((MustUser c).context = some c1 → c1 = c) ∧
    ((MustAdmin c).context = some c1 → c1 = c) ∧
    ((MustAgent c).context = some c1 → c1 = c) ∧
    ((CheckPull c).context = some c1 → c1 = c) ∧
    ((CheckPush c).context = some c1 → c1 = c) := by
  refine ⟨?_, ?_, ?_, ?_, ?_⟩
  · intro h
    cases hu : ToUser c with
    | none =>
      simp [MustUser, hu, Outcome.context] at h
      exact h.symm
    | some u =>
      simp only [MustUser, hu, Outcome.context, Option.some.injEq] at h
      rw [← h]
      exact set_user_same c u hu
  · intro h
    cases hu : ToUser c with
    | none =>
      simp [MustAdmin, hu, Outcome.context] at h
      exact h.symm
    | some u =>
      cases ha : u.Admin
      · simp [MustAdmin, hu, ha, Outcome.context] at h
        exact h.symm
      · simp only [MustAdmin, hu, ha, Outcome.context, Bool.not_true, Bool.false_eq_true,
          if_false, Option.some.injEq] at h
        rw [← h]
        exact set_user_same c u hu
  · intro h
    unfold MustAgent at h
    cases hs : ToSession c with
    | none => simp [hs, Outcome.context] at h
    | some sess =>
      simp only [hs] at h
      split at h
      · simp [Outcome.context] at h
        exact h.symm
      · split at h <;>
          · simp [Outcome.context] at h
            exact h.symm
  · intro h
    unfold CheckPull at h
    simp only at h
    split at h
    · simp [Outcome.context] at h
    · simp [Outcome.context] at h
      exact h.symm
    · split at h
      · simp [Outcome.context] at h
      · simp [Outcome.context] at h
        exact h.symm
      · split at h
        · simp [Outcome.context] at h
        · simp [Outcome.context] at h
          exact h.symm
        · simp [Outcome.context] at h
          exact h.symm
  · intro h
    unfold CheckPush at h
    simp only at h
    split at h
    · simp [Outcome.context] at h
      exact h.symm
    · split at h
      · simp [Outcome.context] at h
      · simp [Outcome.context] at h
        exact h.symm
      · split at h
        · simp [Outcome.context] at h
        · simp [Outcome.context] at h
          exact h.symm
        · simp [Outcome.context] at h
          exact h.symm

/-- Witness for C17: `MustAdmin` refusing alice hands on the context unchanged. -/
theorem guards_leave_context_witness :
    (MustAdmin (userContext "GET" ⟨"alice", false⟩ none)).context =
      some (userContext "GET" ⟨"alice", false⟩ none) ∧
    userContext "GET" ⟨"alice", false⟩ none = userContext "GET" ⟨"alice", false⟩ none :=
  ⟨rfl, (guards_leave_context (userContext "GET" ⟨"alice", false⟩ none)
    (userContext "GET" ⟨"alice", false⟩ none)).2.1 rfl⟩

/-! ## Context accessors -/

/-- Looking a key up right after `c.Set` wrote it finds the written value. -/
theorem Get_Set_same (k : List (String × gin.Value)) (key : String) (v : gin.Value) :
    gin.Keys.Get (gin.Keys.Set k key v) key = some v := by
  simp [gin.Keys.Get, gin.Keys.Set]

/-- Writing a key with `c.Set` leaves the lookup of every other key as it was. -/
theorem Get_Set_other (k : List (String × gin.Value)) (key key2 : String) (v : gin.Value)
    (hne : key ≠ key2) :
    gin.Keys.Get (gin.Keys.Set k key v) key2 = gin.Keys.Get k key2 := by
  have hfind : ∀ l : List (String × gin.Value),
      (l.filter (fun e => e.1 != key)).find? (fun e => e.1 == key2) =
        l.find? (fun e => e.1 == key2) := by
    intro l
    induction l with
    | nil => rfl
    | cons e l ih =>
      by_cases hk : e.1 = key
      · have hk2 : e.1 ≠ key2 := by
          rw [hk]
          exact hne
        rw [List.filter_cons_of_neg (by simp [hk]), List.find?_cons_of_neg _ (by simp [hk2])]
        exact ih
      · rw [List.filter_cons_of_pos (by simp [hk])]
        by_cases hk2 : e.1 = key2
        · rw [List.find?_cons_of_pos _ (by simp [hk2]), List.find?_cons_of_pos _ (by simp [hk2])]
        · rw [List.find?_cons_of_neg _ (by simp [hk2]), List.find?_cons_of_neg _ (by simp [hk2])]
          exact ih
  simp only [gin.Keys.Get, gin.Keys.Set]
  rw [List.find?_cons_of_neg _ (by simpa using hne)]
  rw [hfind k]

/-- C19, as the code has it: over the key bag, each optional accessor returns nil
    when its key is unset; it returns the stored value after its key was set to a
    pointer (user, repo, perm, settings; a nil pointer is returned as nil) or to a
    handle that is not nil (queue, eventbus, remote, runner); `ToDatastore` and
    `ToSession` panic exactly when their key holds no datastore or session, which
    includes the unset key, and return the handle after their setter stored one
    that is not nil. -/
theorem key_bag_accessors (k : List (String × gin.Value)) :
    ((gin.Keys.Get k "user" = none → bag.ToUser k = bag.Read.value none) ∧
      (gin.Keys.Get k "repo" = none → bag.ToRepo k = bag.Read.value none) ∧
      (gin.Keys.Get k "perm" = none → bag.ToPerm k = bag.Read.value none) ∧
      (gin.Keys.Get k "queue" = none → bag.ToQueue k = bag.Read.value none) ∧
      (gin.Keys.Get k "eventbus" = none → bag.ToBus k = bag.Read.value none) ∧
      (gin.Keys.Get k "remote" = none → bag.ToRemote k = bag.Read.value none) ∧
      (gin.Keys.Get k "runner" = none → bag.ToRunner k = bag.Read.value none) ∧
      (gin.Keys.Get k "settings" = none → bag.ToSettings k = bag.Read.value none)) ∧
    ((∀ u : Option User,
        bag.ToUser (gin.Keys.Set k "user" (gin.Value.user u)) = bag.Read.value u) ∧
      (∀ r : Option Repo,
        bag.ToRepo (gin.Keys.Set k "repo" (gin.Value.repo r)) = bag.Read.value r) ∧
      (∀ m : Option Perm,
        bag.ToPerm (gin.Keys.Set k "perm" (gin.Value.perm m)) = bag.Read.value m) ∧
      (∀ s : Option settings.Settings,
        bag.ToSettings (bag.SetSettings s k) = bag.Read.value s)) ∧
    ((∀ q : queue.Queue, bag.ToQueue (bag.SetQueue (some q) k) = bag.Read.value (some q)) ∧
      (∀ b : eventbus.Bus, bag.ToBus (bag.SetBus (some b) k) = bag.Read.value (some b)) ∧
      (∀ r : remote.Remote,
        bag.ToRemote (bag.SetRemote (some r) k) = bag.Read.value (some r)) ∧
      (∀ r : runner.Runner,
        bag.ToRunner (bag.SetRunner (some r) k) = bag.Read.value (some r))) ∧
    ((bag.ToDatastore k = bag.Read.panic ↔
        ¬ ∃ ds : datastore.Datastore,
          gin.Keys.Get k "datastore" = some (gin.Value.datastore ds)) ∧
      (gin.Keys.Get k "datastore" = none → bag.ToDatastore k = bag.Read.panic) ∧
      (∀ ds : datastore.Datastore,
        bag.ToDatastore (bag.SetDatastore (some ds) k) = bag.Read.value (some ds))) ∧
    ((bag.ToSession k = bag.Read.panic ↔
        ¬ ∃ s : session.Session,
          gin.Keys.Get k "session" = some (gin.Value.session s)) ∧
      (gin.Keys.Get k "session" = none → bag.ToSession k = bag.Read.panic) ∧
      (∀ s : session.Session,
        bag.ToSession (bag.SetSession (some s) k) = bag.Read.value (some s))) := by
  refine ⟨⟨?_, ?_, ?_, ?_, ?_, ?_, ?_, ?_⟩, ⟨?_, ?_, ?_, ?_⟩, ⟨?_, ?_, ?_, ?_⟩,
    ⟨?_, ?_, ?_⟩, ⟨?_, ?_, ?_⟩⟩
  · intro h
    simp [bag.ToUser, h]
  · intro h
    simp [bag.ToRepo, h]
  · intro h
    simp [bag.ToPerm, h]
  · intro h
    simp [bag.ToQueue, h]
  · intro h
    simp [bag.ToBus, h]
  · intro h
    simp [bag.ToRemote, h]
  · intro h
    simp [bag.ToRunner, h]
  · intro h
    simp [bag.ToSettings, h]
  · intro u
    simp [bag.ToUser, Get_Set_same]
  · intro r
    simp [bag.ToRepo, Get_Set_same]
  · intro m
    simp [bag.ToPerm, Get_Set_same]
  · intro s
    simp [bag.ToSettings, bag.SetSettings, Get_Set_same]
  · intro q
    simp [bag.ToQueue, bag.SetQueue, Get_Set_same, gin.Value.ofHandle]
  · intro b
    simp [bag.ToBus, bag.SetBus, Get_Set_same, gin.Value.ofHandle]
  · intro r
    simp [bag.ToRemote, bag.SetRemote, Get_Set_same, gin.Value.ofHandle]
  · intro r
    simp [bag.ToRunner, bag.SetRunner, Get_Set_same, gin.Value.ofHandle]
  · cases h : gin.Keys.Get k "datastore" with
    | none => simp [bag.ToDatastore, gin.Keys.MustGet, h]
    | some v => cases v <;> simp [bag.ToDatastore, gin.Keys.MustGet, h]
  · intro h
    simp [bag.ToDatastore, gin.Keys.MustGet, h]
  · intro ds
    simp [bag.ToDatastore, bag.SetDatastore, gin.Keys.MustGet, Get_Set_same,
      gin.Value.ofHandle]
  · cases h : gin.Keys.Get k "session" with
    | none => simp [bag.ToSession, gin.Keys.MustGet, h]
    | some v => cases v <;> simp [bag.ToSession, gin.Keys.MustGet, h]
  · intro h
    simp [bag.ToSession, gin.Keys.MustGet, h]
  · intro s
    simp [bag.ToSession, bag.SetSession, gin.Keys.MustGet, Get_Set_same,
      gin.Value.ofHandle]

/-- Witness for C19: in the empty key bag the user reads as nil and the datastore
    read panics; after `SetQueue` the queue reads back. -/
theorem key_bag_accessors_witness :
    bag.ToUser [] = bag.Read.value none ∧
    bag.ToDatastore [] = bag.Read.panic ∧
    bag.ToQueue (bag.SetQueue (some ⟨7⟩) []) = bag.Read.value (some ⟨7⟩) :=
  ⟨(key_bag_accessors []).1.1 rfl,
   (key_bag_accessors []).2.2.2.1.2.1 rfl,
   (key_bag_accessors []).2.2.1.1 ⟨7⟩⟩

/-- C19 fails as stated: after `SetQueue(nil)` the key queue is set, to the nil
    interface, and `ToQueue` panics in its type assertion where the claim has it
    return what was stored; after `SetDatastore(nil)` the key datastore is set and
    `ToDatastore` still panics, so it does not fail only for an unset key. -/
theorem nil_handle_accessors_panic :
    gin.Keys.Get (bag.SetQueue none []) "queue" = some gin.Value.nil ∧
    bag.ToQueue (bag.SetQueue none []) = bag.Read.panic ∧
    gin.Keys.Get (bag.SetDatastore none []) "datastore" = some gin.Value.nil ∧
    bag.ToDatastore (bag.SetDatastore none []) = bag.Read.panic :=
  ⟨rfl, rfl, rfl, rfl⟩

/-- The typed context agrees with the key bag it stands for: every accessor over
    the bag gives what the accessor over the typed context gives, the panic of a
    mandatory accessor being `none`. -/
theorem typed_accessors_agree (k : List (String × gin.Value)) (c : gin.Context)
    (h : bag.Represents k c) :
    bag.ToUser k = bag.Read.value (ToUser c) ∧
    bag.ToRepo k = bag.Read.value (ToRepo c) ∧
    bag.ToPerm k = bag.Read.value (ToPerm c) ∧
    bag.ToQueue k = bag.Read.value (ToQueue c) ∧
    bag.ToBus k = bag.Read.value (ToBus c) ∧
    bag.ToRemote k = bag.Read.value (ToRemote c) ∧
    bag.ToRunner k = bag.Read.value (ToRunner c) ∧
    bag.ToSettings k = bag.Read.value (ToSettings c) ∧
    bag.ToDatastore k =
      (match ToDatastore c with
       | none => bag.Read.panic
       | some ds => bag.Read.value (some ds)) ∧
    bag.ToSession k =
      (match ToSession c with
       | none => bag.Read.panic
       | some s => bag.Read.value (some s)) := by
  have huser := h "user"
  have hrepo := h "repo"
  have hperm := h "perm"
  have hqueue := h "queue"
  have hbus := h "eventbus"
  have hremote := h "remote"
  have hrunner := h "runner"
  have hsettings := h "settings"
  have hds := h "datastore"
  have hsess := h "session"
  simp only [gin.Context.Get] at huser hrepo hperm hqueue hbus hremote hrunner hsettings hds hsess
  refine ⟨?_, ?_, ?_, ?_, ?_, ?_, ?_, ?_, ?_, ?_⟩
  · cases hc : c.user <;> simp [hc] at huser <;> simp [bag.ToUser, ToUser, huser, hc]
  · cases hc : c.repo <;> simp [hc] at hrepo <;> simp [bag.ToRepo, ToRepo, hrepo, hc]
  · cases hc : c.perm <;> simp [hc] at hperm <;> simp [bag.ToPerm, ToPerm, hperm, hc]
  · cases hc : c.queue <;> simp [hc] at hqueue <;> simp [bag.ToQueue, ToQueue, hqueue, hc]
  · cases hc : c.eventbus <;> simp [hc] at hbus <;> simp [bag.ToBus, ToBus, hbus, hc]
  · cases hc : c.remote <;> simp [hc] at hremote <;>
      simp [bag.ToRemote, ToRemote, hremote, hc]
  · cases hc : c.runner <;> simp [hc] at hrunner <;>
      simp [bag.ToRunner, ToRunner, hrunner, hc]
  · cases hc : c.settings <;> simp [hc] at hsettings <;>
      simp [bag.ToSettings, ToSettings, hsettings, hc]
  · cases hc : c.datastore <;> simp [hc] at hds <;>
      simp [bag.ToDatastore, gin.Keys.MustGet, ToDatastore, hds, hc]
  · cases hc : c.session <;> simp [hc] at hsess <;>
      simp [bag.ToSession, gin.Keys.MustGet, ToSession, hsess, hc]

/-- The empty key bag stands for the typed context with no key set. -/
theorem Represents_nil (c : gin.Context)
    (h : c.queue = none ∧ c.eventbus = none ∧ c.remote = none ∧ c.runner = none ∧
      c.settings = none ∧ c.datastore = none ∧ c.session = none ∧ c.user = none ∧
      c.repo = none ∧ c.perm = none) :
    bag.Represents [] c := by
  obtain ⟨h1, h2, h3, h4, h5, h6, h7, h8, h9, h10⟩ := h
  intro key
  simp [gin.Keys.Get, gin.Context.Get, h1, h2, h3, h4, h5, h6, h7, h8, h9, h10]

/-- Storing a handle that is not nil, or a pointer that is not nil, keeps the key
    bag and the typed context in step: the setter over the bag and the setter over
    the typed context write the same key. -/
theorem typed_setters_agree (k : List (String × gin.Value)) (c : gin.Context)
    (h : bag.Represents k c) :
    (∀ q : queue.Queue,
      bag.Represents (bag.SetQueue (some q) k) { c with queue := some q }) ∧
    (∀ b : eventbus.Bus,
      bag.Represents (bag.SetBus (some b) k) { c with eventbus := some b }) ∧
    (∀ r : remote.Remote,
      bag.Represents (bag.SetRemote (some r) k) { c with remote := some r }) ∧
    (∀ r : runner.Runner,
      bag.Represents (bag.SetRunner (some r) k) { c with runner := some r }) ∧
    (∀ s : settings.Settings,
      bag.Represents (bag.SetSettings (some s) k) { c with settings := some s }) ∧
    (∀ ds : datastore.Datastore,
      bag.Represents (bag.SetDatastore (some ds) k) { c with datastore := some ds }) ∧
    (∀ s : session.Session,
      bag.Represents (bag.SetSession (some s) k) { c with session := some s }) ∧
    (∀ u : User,
      bag.Represents (gin.Keys.Set k "user" (gin.Value.user (some u)))
        { c with user := some u }) ∧
    (∀ r : Repo,
      bag.Represents (gin.Keys.Set k "repo" (gin.Value.repo (some r)))
        { c with repo := some r }) ∧
    (∀ m : Perm,
      bag.Represents (gin.Keys.Set k "perm" (gin.Value.perm (some m)))
        { c with perm := some m }) := by
  refine ⟨?_, ?_, ?_, ?_, ?_, ?_, ?_, ?_, ?_, ?_⟩
  · intro q key
    by_cases hk : key = "queue"
    · subst hk
      simp [bag.SetQueue, Get_Set_same, gin.Context.Get, gin.Value.ofHandle]
    · rw [bag.SetQueue, Get_Set_other _ _ _ _ (Ne.symm hk), h key]
      simp [gin.Context.Get, hk]
  · intro b key
    by_cases hk : key = "eventbus"
    · subst hk
      simp [bag.SetBus, Get_Set_same, gin.Context.Get, gin.Value.ofHandle]
    · rw [bag.SetBus, Get_Set_other _ _ _ _ (Ne.symm hk), h key]
      simp [gin.Context.Get, hk]
  · intro r key
    by_cases hk : key = "remote"
    · subst hk
      simp [bag.SetRemote, Get_Set_same, gin.Context.Get, gin.Value.ofHandle]
    · rw [bag.SetRemote, Get_Set_other _ _ _ _ (Ne.symm hk), h key]
      simp [gin.Context.Get, hk]
  · intro r key
    by_cases hk : key = "runner"
    · subst hk
      simp [bag.SetRunner, Get_Set_same, gin.Context.Get, gin.Value.ofHandle]
    · rw [bag.SetRunner, Get_Set_other _ _ _ _ (Ne.symm hk), h key]
      simp [gin.Context.Get, hk]
  · intro s key
    by_cases hk : key = "settings"
    · subst hk
      simp [bag.SetSettings, Get_Set_same, gin.Context.Get]
    · rw [bag.SetSettings, Get_Set_other _ _ _ _ (Ne.symm hk), h key]
      simp [gin.Context.Get, hk]
  · intro ds key
    by_cases hk : key = "datastore"
    · subst hk
      simp [bag.SetDatastore, Get_Set_same, gin.Context.Get, gin.Value.ofHandle]
    · rw [bag.SetDatastore, Get_Set_other _ _ _ _ (Ne.symm hk), h key]
      simp [gin.Context.Get, hk]
  · intro s key
    by_cases hk : key = "session"
    · subst hk
      simp [bag.SetSession, Get_Set_same, gin.Context.Get, gin.Value.ofHandle]
    · rw [bag.SetSession, Get_Set_other _ _ _ _ (Ne.symm hk), h key]
      simp [gin.Context.Get, hk]
  · intro u key
    by_cases hk : key = "user"
    · subst hk
      simp [Get_Set_same, gin.Context.Get]
    · rw [Get_Set_other _ _ _ _ (Ne.symm hk), h key]
      simp [gin.Context.Get, hk]
  · intro r key
    by_cases hk : key = "repo"
    · subst hk
      simp [Get_Set_same, gin.Context.Get]
    · rw [Get_Set_other _ _ _ _ (Ne.symm hk), h key]
      simp [gin.Context.Get, hk]
  · intro m key
    by_cases hk : key = "perm"
    · subst hk
      simp [Get_Set_same, gin.Context.Get]
    · rw [Get_Set_other _ _ _ _ (Ne.symm hk), h key]
      simp [gin.Context.Get, hk]

/-! ## Agent routes -/

/-- C20, as the code has it: when a request passes `SetUser` and then `MustAgent`
    with the same session service, its token is of kind Agent, and if the token's
    login is not empty the datastore holds a credential record, for the looked-up
    user and the token's label, whose issued timestamp equals the token's. -/
theorem agent_route_admits (s : session.Session) (c c1 c2 : gin.Context)
    (hsess : ToSession c = some s)
    (h1 : SetUser s c = Outcome.next c1) (h2 : MustAgent c1 = Outcome.next c2) :
    ∃ (ds : datastore.Datastore) (tok : Token),
      ToDatastore c = some ds ∧ s.GetLogin c.Request = some tok ∧
      tok.Kind = TokenAgent ∧
      (tok.Login ≠ "" → ∃ t : Token,
        ds.TokenLabel (ds.UserLogin tok.Login) tok.Label = some t ∧
        t.Issued = tok.Issued) := by
  obtain ⟨hreq, hses⟩ := SetUser_next_frame s c c1 h1
  have hs1 : ToSession c1 = some s := by
    simp only [ToSession] at hsess ⊢
    rw [hses, hsess]
  cases hds : ToDatastore c with
  | none => simp [SetUser, hds] at h1
  | some ds =>
    cases htok : s.GetLogin c.Request with
    | none => simp [MustAgent, hs1, hreq, htok] at h2
    | some tok =>
      have hk : tok.Kind = TokenAgent := by
        by_cases hk : tok.Kind = TokenAgent
        · exact hk
        · simp [MustAgent, hs1, hreq, htok, hk] at h2
      refine ⟨ds, tok, rfl, rfl, hk, ?_⟩
      intro hlogin
      have hl := length_beq_zero_of_ne tok.Login hlogin
      cases hr : ds.TokenLabel (ds.UserLogin tok.Login) tok.Label with
      | none => simp [SetUser, hds, htok, hl, hk, hr] at h1
      | some t =>
        refine ⟨t, rfl, ?_⟩
        by_cases hi : t.Issued = tok.Issued
        · exact hi
        · simp [SetUser, hds, htok, hl, hk, hr, hi] at h1

/-- Witness for C20: an Agent token of alice issued at 100, as the stored record. -/
theorem agent_route_admits_witness :
    ∃ (ds : datastore.Datastore) (tok : Token),
      ToDatastore (agentContext sampleDatastore ⟨TokenAgent, "alice", "ci", 100⟩) = some ds ∧
      (fixedSession ⟨TokenAgent, "alice", "ci", 100⟩).GetLogin
        (agentContext sampleDatastore ⟨TokenAgent, "alice", "ci", 100⟩).Request = some tok ∧
      tok.Kind = TokenAgent ∧
      (tok.Login ≠ "" → ∃ t : Token,
        ds.TokenLabel (ds.UserLogin tok.Login) tok.Label = some t ∧
        t.Issued = tok.Issued) :=
  agent_route_admits (fixedSession ⟨TokenAgent, "alice", "ci", 100⟩)
    (agentContext sampleDatastore ⟨TokenAgent, "alice", "ci", 100⟩)
    (setUserIfFound (agentContext sampleDatastore ⟨TokenAgent, "alice", "ci", 100⟩)
      (some ⟨"alice", false⟩))
    (setUserIfFound (agentContext sampleDatastore ⟨TokenAgent, "alice", "ci", 100⟩)
      (some ⟨"alice", false⟩))
    rfl rfl rfl

/-- C20 fails as stated: an Agent token with an empty login passes `SetUser` and
    then `MustAgent` although the datastore holds no credential record at all. -/
theorem agent_route_admits_empty_login :
    (∀ (u : Option User) (label : String), emptyDatastore.TokenLabel u label = none) ∧
    SetUser (fixedSession ⟨TokenAgent, "", "ci", 5⟩)
        (agentContext emptyDatastore ⟨TokenAgent, "", "ci", 5⟩) =
      Outcome.next (agentContext emptyDatastore ⟨TokenAgent, "", "ci", 5⟩) ∧
    ToSession (agentContext emptyDatastore ⟨TokenAgent, "", "ci", 5⟩) =
      some (fixedSession ⟨TokenAgent, "", "ci", 5⟩) ∧
    MustAgent (agentContext emptyDatastore ⟨TokenAgent, "", "ci", 5⟩) =
      Outcome.next (agentContext emptyDatastore ⟨TokenAgent, "", "ci", 5⟩) :=
  ⟨fun _ _ => rfl, rfl, rfl, rfl⟩

end server
